import Mathlib

/-!
# Verification of the download-acquisition subsystem

Shallow embedding of the media-download server (Express routes, rate
limiter, proxy service, format selector) together with theorems checking
the natural-language specification against the code.

Sources embedded:
- `src/server/routes.ts` (POST /api/download handler: strategy ladder,
  rate limiter, format selection, size estimation, filename sanitizer);
- `src/unnamed/part_001` (the production-aware variant of the same routes);
- `src/unnamed/part_000` (ProxyService: proxy refresh and health checks).
-/

/-- Substring containment on character lists, mirroring JavaScript
`String.prototype.includes` for a fixed pattern. -/
def listContainsSubstr (pat : List Char) : List Char → Bool
  | [] => pat.isEmpty
  | c :: t => pat.isPrefixOf (c :: t) || listContainsSubstr pat t

/-- `strContains s pat` is JavaScript `s.includes(pat)`. -/
def strContains (s pat : String) : Bool :=
  listContainsSubstr pat.data s.data

/-- One entry of `info.formats` as consumed by the route handlers.
Optional fields model JavaScript `undefined`. -/
structure YFormat where
  hasVideo : Bool
  hasAudio : Bool
  qualityLabel : Option String
  height : Option Nat
  audioBitrate : Option Nat
  contentLength : Option Nat
  approxDurationMs : Option Nat
deriving DecidableEq, Repr

/-- `ytdl.filterFormats(formats, 'audioonly')`. -/
def filterAudioOnly (fs : List YFormat) : List YFormat :=
  fs.filter (fun f => !f.hasVideo && f.hasAudio)

/-- `ytdl.filterFormats(formats, 'video')`. -/
def filterVideo (fs : List YFormat) : List YFormat :=
  fs.filter (fun f => f.hasVideo)

/-- `ytdl.filterFormats(formats, 'videoandaudio')`. -/
def filterVideoAndAudio (fs : List YFormat) : List YFormat :=
  fs.filter (fun f => f.hasVideo && f.hasAudio)

/-- Audio format selection from the POST /api/download handler:
`audioFormats.find(f => f.audioBitrate) || audioFormats[0]`.
JavaScript truthiness makes a missing or zero `audioBitrate` falsy. -/
def selectAudioFormat (formats : List YFormat) : Option YFormat :=
  let audioFormats := filterAudioOnly formats
  match audioFormats.find? (fun f => f.audioBitrate.getD 0 != 0) with
  | some f => some f
  | none => audioFormats.head?

/-- Audio-only encoding declaring a 64 kbps bitrate. -/
def fmtAudio64 : YFormat :=
  { hasVideo := false, hasAudio := true, qualityLabel := none, height := none,
    audioBitrate := some 64, contentLength := none, approxDurationMs := none }

/-- Audio-only encoding declaring a 128 kbps bitrate. -/
def fmtAudio128 : YFormat :=
  { hasVideo := false, hasAudio := true, qualityLabel := none, height := none,
    audioBitrate := some 128, contentLength := none, approxDurationMs := none }

/-- Audio-only encoding declaring no bitrate. -/
def fmtAudioNoBr : YFormat :=
  { hasVideo := false, hasAudio := true, qualityLabel := none, height := none,
    audioBitrate := none, contentLength := none, approxDurationMs := none }

/-- C3 counterexample: on an encoding set whose first audio-only encoding
declares 64 kbps and whose second declares 128 kbps, the selector returns the
64 kbps encoding, not the one with the highest declared bitrate. -/
theorem c3_counterexample :
    selectAudioFormat [fmtAudio64, fmtAudio128] = some fmtAudio64 ∧
    selectAudioFormat [fmtAudio64, fmtAudio128] ≠ some fmtAudio128 := by
  decide

/-- C3 (amended): for an audio-kind request the selector returns the first
audio-only encoding that declares a nonzero bitrate; if no audio-only encoding
declares one, it returns the first audio-only encoding in the set. -/
theorem c3_amended :
    (∀ formats pre f post,
      filterAudioOnly formats = pre ++ f :: post →
      (∀ g ∈ pre, g.audioBitrate.getD 0 = 0) →
      f.audioBitrate.getD 0 ≠ 0 →
      selectAudioFormat formats = some f)
    ∧ (∀ formats,
      (∀ g ∈ filterAudioOnly formats, g.audioBitrate.getD 0 = 0) →
      selectAudioFormat formats = (filterAudioOnly formats).head?) := by
  constructor
  · intro formats pre f post hsplit hpre hf
    unfold selectAudioFormat
    have hfind : (filterAudioOnly formats).find? (fun f => f.audioBitrate.getD 0 != 0)
        = some f := by
      rw [hsplit, List.find?_append]
      have h1 : pre.find? (fun f => f.audioBitrate.getD 0 != 0) = none := by
        rw [List.find?_eq_none]
        intro x hx
        simpa using hpre x hx
      rw [h1]
      simp [List.find?_cons, hf]
    simp [hfind]
  · intro formats hall
    unfold selectAudioFormat
    have hfind : (filterAudioOnly formats).find? (fun f => f.audioBitrate.getD 0 != 0)
        = none := by
      rw [List.find?_eq_none]
      intro x hx
      simpa using hall x hx
    simp [hfind]

/-- Witness for `c3_amended` at concrete encoding sets. -/
theorem c3_amended_witness :
    selectAudioFormat [fmtAudio64, fmtAudio128] = some fmtAudio64 ∧
    selectAudioFormat [fmtAudioNoBr] = some fmtAudioNoBr := by
  refine ⟨c3_amended.1 [fmtAudio64, fmtAudio128] [] fmtAudio64 [fmtAudio128]
    (by decide) (by decide) (by decide), ?_⟩
  have h := c3_amended.2 [fmtAudioNoBr] (by decide)
  rw [h]
  decide

/-- `qualityFilter` from the `switch(quality)` in the video branch. -/
def qualityFilterOf (quality : String) : String :=
  if quality == "4k" then "2160p"
  else if quality == "1080p" then "1080p"
  else if quality == "720p" then "720p"
  else if quality == "480p" then "480p"
  else if quality == "360p" then "360p"
  else "highest"

/-- `fallbackQualities` from the `switch(quality)` in the video branch. -/
def fallbackQualitiesOf (quality : String) : List String :=
  if quality == "4k" then ["1440p", "1080p", "highest"]
  else if quality == "1080p" then ["720p", "highest"]
  else if quality == "720p" then ["480p", "highest"]
  else if quality == "480p" then ["360p", "highest"]
  else if quality == "360p" then ["lowest"]
  else []

/-- JavaScript `f.height || 0`. -/
def heightOr0 (f : YFormat) : Nat := f.height.getD 0

/-- Stable insertion keeping descending `height` order: the inserted element
(which precedes the list elements in the original array) passes only elements
with a strictly larger key, so it lands before equal-key elements. -/
def insertHeightDesc (f : YFormat) : List YFormat → List YFormat
  | [] => [f]
  | g :: t => if heightOr0 f < heightOr0 g then g :: insertHeightDesc f t else f :: g :: t

/-- Stable insertion keeping ascending `height` order. -/
def insertHeightAsc (f : YFormat) : List YFormat → List YFormat
  | [] => [f]
  | g :: t => if heightOr0 g < heightOr0 f then g :: insertHeightAsc f t else f :: g :: t

/-- `arr.sort((a, b) => (b.height || 0) - (a.height || 0))`; JavaScript sort is
stable, and a stable sort is uniquely determined by the comparator, so a stable
insertion sort is a faithful model. -/
def sortByHeightDesc (l : List YFormat) : List YFormat :=
  l.foldr insertHeightDesc []

/-- `arr.sort((a, b) => (a.height || 0) - (b.height || 0))`. -/
def sortByHeightAsc (l : List YFormat) : List YFormat :=
  l.foldr insertHeightAsc []

/-- JavaScript `f.qualityLabel?.includes('2160')` (falsy when the label is absent). -/
def labelIncludes2160 (f : YFormat) : Bool :=
  match f.qualityLabel with
  | some s => strContains s "2160"
  | none => false

/-- The pre-fallback selection block of the video branch: the `quality === '4k'`
branch, the `quality === '1080p'` branch, and the combined-first branch for the
remaining qualities.  `allV` is `allVideoFormats`, `vAndA` is
`videoAndAudioFormats`. -/
def mainVideoSelect (allV vAndA : List YFormat) (quality qualityFilter : String) :
    Option YFormat :=
  if quality == "4k" then
    match allV.find? (fun f =>
        (f.qualityLabel == some "2160p" || f.height == some 2160)
          && f.hasVideo && !f.hasAudio) with
    | some f => some f
    | none =>
      match allV.find? (fun f =>
          (labelIncludes2160 f || f.height == some 2160) && f.hasVideo) with
      | some f => some f
      | none =>
        match (sortByHeightDesc (allV.filter (fun f =>
            f.hasVideo && !f.hasAudio && decide (1080 ≤ heightOr0 f)))).head? with
        | some f => some f
        | none =>
          (sortByHeightDesc (vAndA.filter (fun f =>
            decide (1080 ≤ heightOr0 f)))).head?
  else if quality == "1080p" then
    match allV.find? (fun f =>
        f.qualityLabel == some qualityFilter && f.hasVideo && !f.hasAudio) with
    | some f => some f
    | none => vAndA.find? (fun f => f.qualityLabel == some qualityFilter)
  else
    match vAndA.find? (fun f => f.qualityLabel == some qualityFilter) with
    | some f => some f
    | none =>
      allV.find? (fun f =>
        f.qualityLabel == some qualityFilter && f.hasVideo && !f.hasAudio)

/-- The `for (const fallback of fallbackQualities)` loop: stop at the first
fallback tier producing a format. -/
def fallbackVideoSelect (allV vAndA : List YFormat) : List String → Option YFormat
  | [] => none
  | fb :: rest =>
    let r :=
      if fb == "highest" then
        match (sortByHeightDesc (allV.filter (fun f => f.hasVideo && !f.hasAudio))).head? with
        | some f => some f
        | none => (sortByHeightDesc vAndA).head?
      else if fb == "lowest" then
        (sortByHeightAsc vAndA).head?
      else
        match allV.find? (fun f =>
            f.qualityLabel == some fb && f.hasVideo && !f.hasAudio) with
        | some f => some f
        | none => vAndA.find? (fun f => f.qualityLabel == some fb)
    match r with
    | some f => some f
    | none => fallbackVideoSelect allV vAndA rest

/-- Whole video format selection of the POST /api/download handler (identical in
GET /api/stream/video): main branch, then the fallback-quality loop, then the
last resort `allVideoFormats.filter(f => f.hasVideo)[0] || videoAndAudioFormats[0]`. -/
def selectVideoFormat (formats : List YFormat) (quality : String) : Option YFormat :=
  let qualityFilter := qualityFilterOf quality
  let allV := filterVideo formats
  let vAndA := filterVideoAndAudio formats
  match mainVideoSelect allV vAndA quality qualityFilter with
  | some f => some f
  | none =>
    match fallbackVideoSelect allV vAndA (fallbackQualitiesOf quality) with
    | some f => some f
    | none =>
      match (allV.filter (fun f => f.hasVideo)).head? with
      | some f => some f
      | none => vAndA.head?

/-- Combined (video+audio) 1080p encoding. -/
def fmtComb1080 : YFormat :=
  { hasVideo := true, hasAudio := true, qualityLabel := some "1080p", height := some 1080,
    audioBitrate := some 128, contentLength := none, approxDurationMs := none }

/-- Combined (video+audio) 720p encoding. -/
def fmtComb720 : YFormat :=
  { hasVideo := true, hasAudio := true, qualityLabel := some "720p", height := some 720,
    audioBitrate := some 128, contentLength := none, approxDurationMs := none }

/-- Video-only 1080p encoding. -/
def fmtVideoOnly1080 : YFormat :=
  { hasVideo := true, hasAudio := false, qualityLabel := some "1080p", height := some 1080,
    audioBitrate := none, contentLength := none, approxDurationMs := none }

/-- Video-only 2160p encoding. -/
def fmtVideoOnly2160 : YFormat :=
  { hasVideo := true, hasAudio := false, qualityLabel := some "2160p", height := some 2160,
    audioBitrate := none, contentLength := none, approxDurationMs := none }

/-- Combined (video+audio) 2160p encoding. -/
def fmtComb2160 : YFormat :=
  { hasVideo := true, hasAudio := true, qualityLabel := some "2160p", height := some 2160,
    audioBitrate := some 128, contentLength := none, approxDurationMs := none }

/-- Video-only 720p encoding. -/
def fmtVideoOnly720 : YFormat :=
  { hasVideo := true, hasAudio := false, qualityLabel := some "720p", height := some 720,
    audioBitrate := none, contentLength := none, approxDurationMs := none }

/-- C4: above 720p (requests `4k` and `1080p`) the selector prefers a video-only
encoding carrying the requested label even when a combined one carries it too;
at 720p and below it returns the combined encoding carrying the exact label even
when a video-only encoding with the same label exists. -/
theorem c4_video_only_vs_combined :
    (∀ (formats : List YFormat) (q lbl : String),
      ((q = "4k" ∧ lbl = "2160p") ∨ (q = "1080p" ∧ lbl = "1080p")) →
      (∃ f ∈ formats, f.hasVideo = true ∧ f.hasAudio = false ∧ f.qualityLabel = some lbl) →
      (∃ g ∈ formats, g.hasVideo = true ∧ g.hasAudio = true ∧ g.qualityLabel = some lbl) →
      ∃ r, selectVideoFormat formats q = some r ∧ r.hasVideo = true ∧ r.hasAudio = false ∧
        (r.qualityLabel = some lbl ∨ r.height = some 2160))
    ∧ (∀ (formats : List YFormat) (q : String),
      (q = "720p" ∨ q = "480p" ∨ q = "360p") →
      (∃ g ∈ formats, g.hasVideo = true ∧ g.hasAudio = true ∧ g.qualityLabel = some q) →
      ∃ r, selectVideoFormat formats q = some r ∧ r.hasVideo = true ∧ r.hasAudio = true ∧
        r.qualityLabel = some q) := by
  constructor
  · intro formats q lbl hq hvo _hcomb
    rcases hq with ⟨hq, hl⟩ | ⟨hq, hl⟩ <;> subst hq <;> subst hl
    · obtain ⟨f, hfmem, hfv, hfa, hflbl⟩ := hvo
      have hmem : f ∈ filterVideo formats := by
        rw [filterVideo, List.mem_filter]
        exact ⟨hfmem, by simp [hfv]⟩
      have hsome : ((filterVideo formats).find? (fun f =>
          (f.qualityLabel == some "2160p" || f.height == some 2160)
            && f.hasVideo && !f.hasAudio)).isSome := by
        rw [List.find?_isSome]
        exact ⟨f, hmem, by simp [hflbl, hfv, hfa]⟩
      obtain ⟨r, hr⟩ := Option.isSome_iff_exists.mp hsome
      have hp := List.find?_some hr
      simp only [Bool.and_eq_true, Bool.not_eq_true', Bool.or_eq_true, beq_iff_eq] at hp
      exact ⟨r, by simp [selectVideoFormat, mainVideoSelect, hr], hp.1.2, hp.2, hp.1.1⟩
    · obtain ⟨f, hfmem, hfv, hfa, hflbl⟩ := hvo
      have hmem : f ∈ filterVideo formats := by
        rw [filterVideo, List.mem_filter]
        exact ⟨hfmem, by simp [hfv]⟩
      have hsome : ((filterVideo formats).find? (fun f =>
          f.qualityLabel == some "1080p" && f.hasVideo && !f.hasAudio)).isSome := by
        rw [List.find?_isSome]
        exact ⟨f, hmem, by simp [hflbl, hfv, hfa]⟩
      obtain ⟨r, hr⟩ := Option.isSome_iff_exists.mp hsome
      have hp := List.find?_some hr
      simp only [Bool.and_eq_true, Bool.not_eq_true', beq_iff_eq] at hp
      exact ⟨r, by simp [selectVideoFormat, mainVideoSelect, qualityFilterOf, hr],
        hp.1.2, hp.2, Or.inl hp.1.1⟩
  · intro formats q hq hcomb
    obtain ⟨g, hgmem, hgv, hga, hglbl⟩ := hcomb
    have hmem : g ∈ filterVideoAndAudio formats := by
      rw [filterVideoAndAudio, List.mem_filter]
      exact ⟨hgmem, by simp [hgv, hga]⟩
    have hsome : ((filterVideoAndAudio formats).find? (fun f =>
        f.qualityLabel == some q)).isSome := by
      rw [List.find?_isSome]
      exact ⟨g, hmem, by simp [hglbl]⟩
    obtain ⟨r, hr⟩ := Option.isSome_iff_exists.mp hsome
    have hp := List.find?_some hr
    simp only [beq_iff_eq] at hp
    have hrmem := List.mem_of_find?_eq_some hr
    rw [filterVideoAndAudio, List.mem_filter] at hrmem
    have hrva := hrmem.2
    simp only [Bool.and_eq_true] at hrva
    rcases hq with hq | hq | hq <;> subst hq <;>
      exact ⟨r, by simp [selectVideoFormat, mainVideoSelect, qualityFilterOf, hr],
        hrva.1, hrva.2, hp⟩

/-- Witness for `c4_video_only_vs_combined`: a set with video-only and combined
1080p encodings under a `1080p` request, and one with video-only and combined
720p encodings under a `720p` request. -/
theorem c4_video_only_vs_combined_witness :
    (∃ r, selectVideoFormat [fmtComb1080, fmtVideoOnly1080] "1080p" = some r ∧
      r.hasVideo = true ∧ r.hasAudio = false ∧
      (r.qualityLabel = some "1080p" ∨ r.height = some 2160)) ∧
    (∃ r, selectVideoFormat [fmtVideoOnly720, fmtComb720] "720p" = some r ∧
      r.hasVideo = true ∧ r.hasAudio = true ∧ r.qualityLabel = some "720p") := by
  constructor
  · exact c4_video_only_vs_combined.1 [fmtComb1080, fmtVideoOnly1080] "1080p" "1080p"
      (Or.inr ⟨rfl, rfl⟩)
      ⟨fmtVideoOnly1080, by decide, by decide, by decide, by decide⟩
      ⟨fmtComb1080, by decide, by decide, by decide, by decide⟩
  · exact c4_video_only_vs_combined.2 [fmtVideoOnly720, fmtComb720] "720p"
      (Or.inl rfl)
      ⟨fmtComb720, by decide, by decide, by decide, by decide⟩

/-- C5: requesting `4k` against the set `{1080p combined, 720p combined}` yields
the 1080p combined encoding (checked in both list orders). -/
theorem c5_4k_fallback_to_1080_combined :
    selectVideoFormat [fmtComb1080, fmtComb720] "4k" = some fmtComb1080 ∧
    selectVideoFormat [fmtComb720, fmtComb1080] "4k" = some fmtComb1080 := by
  decide

/-- The `fileSize` string produced by the handler, kept structured: the numeric
megabyte value before `toFixed(1)` formatting, with the `(est.)` flag as a
separate constructor. -/
inductive FileSizeRepr
  | declaredMB (mb : ℚ)
  | estimatedMB (mb : ℚ)
  | calculating
deriving DecidableEq

/-- Audio size estimate from the handler:
`(durationMs * bitrate * 1000) / (8 * 1024 * 1024)`. -/
def audioEstimateMB (durationMs bitrate : Nat) : ℚ :=
  (durationMs * bitrate * 1000 : ℚ) / (8 * 1024 * 1024)

/-- `height >= 1080 ? 8 : height >= 720 ? 5 : height >= 480 ? 2.5 : 1`. -/
def estimatedMbpsFor (h : Nat) : ℚ :=
  if 1080 ≤ h then 8 else if 720 ≤ h then 5 else if 480 ≤ h then 5 / 2 else 1

/-- Video size estimate from the handler:
`(durationMs * estimatedMbps) / (8 * 1000)`. -/
def videoEstimateMB (durationMs h : Nat) : ℚ :=
  (durationMs : ℚ) * estimatedMbpsFor h / (8 * 1000)

/-- `fileSize` computation of the audio branch (declared `contentLength` wins,
then duration-based estimate with `audioBitrate || 128`, else the initial
"Calculating..." value). -/
def audioFileSize (af : Option YFormat) : FileSizeRepr :=
  match af with
  | none => .calculating
  | some f =>
    match f.contentLength with
    | some n => .declaredMB ((n : ℚ) / (1024 * 1024))
    | none =>
      match f.approxDurationMs with
      | some d =>
        .estimatedMB (audioEstimateMB d
          (if f.audioBitrate.getD 0 = 0 then 128 else f.audioBitrate.getD 0))
      | none => .calculating

/-- `fileSize` computation of the video branch (with `height || 480`). -/
def videoFileSize (vf : Option YFormat) : FileSizeRepr :=
  match vf with
  | none => .calculating
  | some f =>
    match f.contentLength with
    | some n => .declaredMB ((n : ℚ) / (1024 * 1024))
    | none =>
      match f.approxDurationMs with
      | some d =>
        .estimatedMB (videoEstimateMB d (if heightOr0 f = 0 then 480 else heightOr0 f))
      | none => .calculating

/-- Shape of the response the POST /api/download handler sends after the video
branch: `res.json({success: true, ...})` or an error JSON from the surrounding
catch/validation stages. -/
inductive VideoBranchResult
  | success (fileSize : FileSizeRepr)
  | error (msg : String)
deriving DecidableEq

/-- The video branch of the POST /api/download handler after metadata
retrieval: select a format, compute `fileSize`, and answer `res.json` with
`success: true`.  No error is produced in this section of the source, whatever
the selection returns. -/
def videoBranchResponse (formats : List YFormat) (quality : String) : VideoBranchResult :=
  .success (videoFileSize (selectVideoFormat formats quality))

/-- `mainVideoSelect` over empty format lists finds nothing. -/
theorem mainVideoSelect_nil (q qf : String) : mainVideoSelect [] [] q qf = none := by
  simp [mainVideoSelect, sortByHeightDesc, sortByHeightAsc]

/-- `fallbackVideoSelect` over empty format lists finds nothing. -/
theorem fallbackVideoSelect_nil (fbs : List String) :
    fallbackVideoSelect [] [] fbs = none := by
  induction fbs with
  | nil => rfl
  | cons fb rest ih => simp [fallbackVideoSelect, sortByHeightDesc, sortByHeightAsc, ih]

/-- C6 counterexample: on the empty encoding set the selector yields
null/undefined, yet the POST /api/download caller still answers with a success
response (fileSize left at "Calculating...") instead of a no-format-available
error. -/
theorem c6_counterexample :
    selectVideoFormat [] "1080p" = none ∧
    videoBranchResponse [] "1080p" = VideoBranchResult.success FileSizeRepr.calculating := by
  decide

/-- C6 (amended): format selection is total (never raises) and returns
null/undefined exactly when the set holds no video-bearing encoding; but the
POST /api/download caller does not treat that as an error — it still sends a
success response with `fileSize` left at "Calculating...". -/
theorem c6_amended :
    (∀ (formats : List YFormat) (q : String),
      selectVideoFormat formats q = none ↔ filterVideo formats = [])
    ∧ (∀ (formats : List YFormat) (q : String),
      selectVideoFormat formats q = none →
      videoBranchResponse formats q = VideoBranchResult.success FileSizeRepr.calculating) := by
  constructor
  · intro formats q
    constructor
    · intro hnone
      by_contra hne
      have hself : (filterVideo formats).filter (fun f => f.hasVideo) = filterVideo formats :=
        List.filter_eq_self.mpr (fun a ha => (List.mem_filter.mp ha).2)
      cases hfv : filterVideo formats with
      | nil => exact hne hfv
      | cons a t =>
        rw [selectVideoFormat] at hnone
        cases hm : mainVideoSelect (filterVideo formats) (filterVideoAndAudio formats)
            q (qualityFilterOf q) with
        | some f => simp [hm] at hnone
        | none =>
          cases hf : fallbackVideoSelect (filterVideo formats) (filterVideoAndAudio formats)
              (fallbackQualitiesOf q) with
          | some f => simp [hm, hf] at hnone
          | none =>
            rw [hm, hf] at hnone
            have ha : a.hasVideo = true := by
              have hamem : a ∈ filterVideo formats := by
                rw [hfv]; exact List.mem_cons_self a t
              exact (List.mem_filter.mp hamem).2
            simp only [hself, hfv] at hnone
            simp [List.find?_cons, ha] at hnone
    · intro hempty
      have hva : filterVideoAndAudio formats = [] := by
        rw [filterVideo, List.filter_eq_nil_iff] at hempty
        rw [filterVideoAndAudio, List.filter_eq_nil_iff]
        intro a ha hcon
        simp only [Bool.and_eq_true] at hcon
        exact hempty a ha (by simp [hcon.1])
      rw [selectVideoFormat, hempty, hva,
        mainVideoSelect_nil, fallbackVideoSelect_nil]
      rfl
  · intro formats q hnone
    rw [videoBranchResponse, hnone]
    rfl

/-- Witness for `c6_amended` at the empty set and a set with one combined
encoding. -/
theorem c6_amended_witness :
    (selectVideoFormat [] "480p" = none ↔ filterVideo ([] : List YFormat) = []) ∧
    videoBranchResponse [] "720p" = VideoBranchResult.success FileSizeRepr.calculating := by
  exact ⟨c6_amended.1 [] "480p",
    c6_amended.2 [] "720p" ((c6_amended.1 [] "720p").mpr (by decide))⟩

/-- Modelled from the spec: "estimate as durationSeconds × bitrate / 8",
converted to megabytes, with the bitrate in kilobits per second and one
megabyte = 1024 × 1024 bytes. -/
def specAudioEstimateMB (durationSeconds bitrate : ℚ) : ℚ :=
  durationSeconds * (bitrate * 1000) / 8 / (1024 * 1024)

/-- Audio-only encoding with no declared byte length, a 3-minute duration
(`approxDurationMs = 180000`) and a declared 128 kbps bitrate. -/
def fmtAudioEst : YFormat :=
  { hasVideo := false, hasAudio := true, qualityLabel := none, height := none,
    audioBitrate := some 128, contentLength := none, approxDurationMs := some 180000 }

/-- C7: the handler multiplies the duration in milliseconds (not seconds) by
the bitrate, so the reported estimate is exactly 1000 × the value the spec
formula gives: a 3-minute 128 kbps track is reported as ≈ 2746.58 MB instead
of ≈ 2.81 MB.  The result is flagged as an estimate, as claimed. -/
theorem c7_size_estimate_bug :
    audioFileSize (some fmtAudioEst)
      = FileSizeRepr.estimatedMB (audioEstimateMB 180000 128) ∧
    audioEstimateMB 180000 128 = 703125 / 256 ∧
    specAudioEstimateMB 180 128 = 5625 / 2048 ∧
    (∀ (s b : Nat), audioEstimateMB (1000 * s) b = 1000 * specAudioEstimateMB s b) := by
  refine ⟨rfl, by norm_num [audioEstimateMB], by norm_num [specAudioEstimateMB], ?_⟩
  intro s b
  simp only [audioEstimateMB, specAudioEstimateMB]
  push_cast
  ring

/-- JavaScript `\w` without the unicode flag: ASCII letters, digits, underscore. -/
def isWordChar (c : Char) : Bool := c.isAlphanum || c == '_'

/-- JavaScript `\s` whitespace characters (ASCII part). -/
def isSpaceChar (c : Char) : Bool :=
  c == ' ' || c == '\t' || c == '\n' || c == '\r' || c.toNat == 11 || c.toNat == 12

/-- Characters surviving `.replace(/[^\w\s-]/g, '')`. -/
def keepChar (c : Char) : Bool := isWordChar c || isSpaceChar c || c == '-'

/-- `.replace(/\s+/g, '_')`: each maximal whitespace run becomes a single
underscore; the Bool tracks whether the previous character was whitespace. -/
def collapseWsAux : List Char → Bool → List Char
  | [], _ => []
  | c :: t, prevSpace =>
    if isSpaceChar c then
      if prevSpace then collapseWsAux t true
      else '_' :: collapseWsAux t true
    else c :: collapseWsAux t false

/-- `title.replace(/[^\w\s-]/g, '').replace(/\s+/g, '_').substring(0, 100)`. -/
def sanitizeTitle (title : String) : String :=
  String.mk ((collapseWsAux (title.data.filter keepChar) false).take 100)

/-- `` `${sanitizedTitle}_${timestamp}.mp3` `` with `timestamp = Date.now()`:
`extWithDot` is ".mp3" for the audio branch and ".mp4" for the video branch. -/
def makeFilename (title : String) (timestamp : Nat) (extWithDot : String) : String :=
  sanitizeTitle title ++ "_" ++ toString timestamp ++ extWithDot

/-- C8: the sanitizer maps "Official Video! #1 (2024)" to
"Official_Video_1_2024", and the produced filename is that sanitized title
followed by an underscore, the numeric timestamp and the extension. -/
theorem c8_filename_sanitization :
    sanitizeTitle "Official Video! #1 (2024)" = "Official_Video_1_2024" ∧
    ∀ ts : Nat, makeFilename "Official Video! #1 (2024)" ts ".mp3"
      = "Official_Video_1_2024" ++ "_" ++ toString ts ++ ".mp3" := by
  have h : sanitizeTitle "Official Video! #1 (2024)" = "Official_Video_1_2024" := by
    decide
  refine ⟨h, fun ts => ?_⟩
  rw [makeFilename, h]

/-- The metadata object a successful `ytdl.getInfo` strategy yields. -/
structure YInfo where
  title : String
  formats : List YFormat
deriving DecidableEq

/-- Outcome of one acquisition strategy attempt. -/
inductive StratOutcome
  | ok (info : YInfo)
  | fail (errMsg : String)
deriving DecidableEq

/-- Result of the whole strategy ladder: the retrieved metadata or the thrown
terminal error message. -/
inductive LadderResult
  | ok (info : YInfo)
  | error (msg : String)
deriving DecidableEq

/-- Bot-detection test from the strategy-4 catch block:
`errorMessage.includes('Sign in to confirm') || errorMessage.includes('robot')
|| errorMessage.includes('captcha')`. -/
def isBotDetectionMsg (m : String) : Bool :=
  strContains m "Sign in to confirm" || strContains m "robot" || strContains m "captcha"

/-- Terminal message thrown when the last failure matches the bot-detection
phrases. -/
def blockedMessage : String :=
  "YouTube is currently blocking all automated access. Please try again in 15-30 minutes, or try a different video URL."

/-- The four-strategy `ytdl.getInfo` ladder of the POST /api/download handler.
`ytDlpFallback` is the outcome the external extraction tool would produce if it
were invoked: the strategy-4 catch block logs that yt-dlp would be the final
fallback but throws immediately, so this argument is never consulted. -/
def getInfoLadder (s1 s2 s3 s4 : StratOutcome) (ytDlpFallback : StratOutcome) :
    LadderResult :=
  match s1 with
  | .ok i => .ok i
  | .fail _ =>
    match s2 with
    | .ok i => .ok i
    | .fail _ =>
      match s3 with
      | .ok i => .ok i
      | .fail _ =>
        match s4 with
        | .ok i => .ok i
        | .fail e4 =>
          if isBotDetectionMsg e4 then .error blockedMessage
          else .error ("All download strategies failed. Last error: " ++ e4)

/-- A strategy failure carrying a bot-detection phrase. -/
def blockedFail : StratOutcome :=
  .fail "Sign in to confirm that you are not a robot"

/-- Metadata the external extraction tool would return. -/
def ytDlpInfo : YInfo := { title := "video", formats := [fmtComb720] }

/-- C1 counterexample: strategies 1-4 all fail with blocking-classified errors
and the external tool would succeed, yet the orchestrator returns the terminal
blocking error instead of the strategy-5 result. -/
theorem c1_counterexample :
    getInfoLadder blockedFail blockedFail blockedFail blockedFail (.ok ytDlpInfo)
      = LadderResult.error blockedMessage ∧
    getInfoLadder blockedFail blockedFail blockedFail blockedFail (.ok ytDlpInfo)
      ≠ LadderResult.ok ytDlpInfo := by
  decide

/-- C1 (amended): when strategies 1-4 all fail the orchestrator never proceeds
to a fifth strategy — the outcome the external tool would produce is ignored in
every case — and the terminal error is classified by the last (fourth)
failure's kind: the fixed blocking message when it matches the bot-detection
phrases, otherwise a generic message quoting the last error. -/
theorem c1_amended :
    (∀ (e1 e2 e3 e4 : String) (s5 : StratOutcome),
      getInfoLadder (.fail e1) (.fail e2) (.fail e3) (.fail e4) s5
        = .error (if isBotDetectionMsg e4 then blockedMessage
            else "All download strategies failed. Last error: " ++ e4))
    ∧ (∀ (s1 s2 s3 s4 s5 s5' : StratOutcome),
      getInfoLadder s1 s2 s3 s4 s5 = getInfoLadder s1 s2 s3 s4 s5') := by
  constructor
  · intro e1 e2 e3 e4 s5
    cases hb : isBotDetectionMsg e4 <;> simp [getInfoLadder, hb]
  · intro s1 s2 s3 s4 s5 s5'
    cases s1 <;> cases s2 <;> cases s3 <;> cases s4 <;> rfl

/-- Decision of the rate-limit gate: both rejection branches answer HTTP 429,
acceptance records the request and continues. -/
inductive RateDecision
  | rejectedCount
  | rejectedInterval
  | accepted
deriving DecidableEq, Repr

/-- Sliding-window length: 2 h in production, 1 h in development. -/
def timeWindow (isProduction : Bool) : Nat :=
  if isProduction then 7200000 else 3600000

/-- Request ceiling: 5 in production, 10 in development. -/
def maxRequests (isProduction : Bool) : Nat :=
  if isProduction then 5 else 10

/-- Minimum spacing between accepted requests: 30 s in production, 5 s in
development. -/
def minInterval (isProduction : Bool) : Nat :=
  if isProduction then 30000 else 5000

/-- `getRateLimitInfo`: prune timestamps older than the window
(`requests.filter(time => now - time < timeWindow)`). -/
def recentRequests (requests : List Nat) (now : Nat) (isProduction : Bool) : List Nat :=
  requests.filter (fun t => now - t < timeWindow isProduction)

/-- The rate-limit gate of POST /api/download: count check
(`rateLimitInfo.count > maxRequests`), then interval check
(`now - lastRequest < minInterval`), then `addRequest`.  Returns the decision
and the tracker list stored for the client afterwards; `getRateLimitInfo`
itself stores the pruned list even when the request is rejected. -/
def rateLimitStep (requests : List Nat) (now : Nat) (isProduction : Bool) :
    RateDecision × List Nat :=
  let recent := recentRequests requests now isProduction
  let lastRequest := recent.getLast?.getD 0
  if maxRequests isProduction < recent.length then (.rejectedCount, recent)
  else if now - lastRequest < minInterval isProduction then (.rejectedInterval, recent)
  else (.accepted, recent ++ [now])

/-- C2 counterexample: in production, after 5 recorded requests inside the
2-hour window (spaced more than 30 s apart), the 6th request is accepted — the
code rejects only when the recorded count exceeds 5. -/
theorem c2_counterexample :
    (rateLimitStep [0, 100000, 200000, 300000, 400000] 500000 true).1
      = RateDecision.accepted := by
  decide

/-- C2 (amended): in production a request is rejected by the ceiling exactly
when more than 5 requests are already recorded in the window (so the 7th
request inside the window is the first one the ceiling can reject); once every
recorded request is older than the 2-hour window, the pruned count is zero and
the next request is accepted. -/
theorem c2_amended :
    (∀ (requests : List Nat) (now : Nat),
      6 ≤ (recentRequests requests now true).length →
      (rateLimitStep requests now true).1 = RateDecision.rejectedCount)
    ∧ (∀ (requests : List Nat) (now : Nat),
      requests ≠ [] →
      (∀ t ∈ requests, t + 7200000 ≤ now) →
      (recentRequests requests now true).length = 0 ∧
      (rateLimitStep requests now true).1 = RateDecision.accepted) := by
  constructor
  · intro requests now h6
    have hmax : maxRequests true = 5 := rfl
    have hlt : maxRequests true < (recentRequests requests now true).length := by
      omega
    simp [rateLimitStep, hlt]
  · intro requests now hne hold
    have hwin : timeWindow true = 7200000 := rfl
    have hempty : recentRequests requests now true = [] := by
      rw [recentRequests, List.filter_eq_nil_iff]
      intro t ht
      have := hold t ht
      simp only [decide_eq_true_eq]
      omega
    have hnow : 7200000 ≤ now := by
      cases requests with
      | nil => exact absurd rfl hne
      | cons a t =>
        have := hold a (List.mem_cons_self a t)
        omega
    refine ⟨by rw [hempty]; rfl, ?_⟩
    have hmin : minInterval true = 30000 := rfl
    have hint : ¬ now < minInterval true := by omega
    simp [rateLimitStep, hempty, hint, maxRequests]

/-- Witness for `c2_amended`: six recorded requests make the seventh rejected;
a single two-hour-old request is pruned and the next one accepted. -/
theorem c2_amended_witness :
    (rateLimitStep [0, 1, 2, 3, 4, 5] 100000 true).1 = RateDecision.rejectedCount ∧
    ((recentRequests [0] 7200000 true).length = 0 ∧
      (rateLimitStep [0] 7200000 true).1 = RateDecision.accepted) :=
  ⟨c2_amended.1 [0, 1, 2, 3, 4, 5] 100000 (by decide),
   c2_amended.2 [0] 7200000 (by decide) (by decide)⟩

/-- C10: when the gate rejects a request (either check), no new timestamp is
appended: the stored tracker list is a sublist of the previous one, so the
recorded set grows only on acceptance. -/
theorem c10_no_append_on_reject :
    ∀ (requests : List Nat) (now : Nat) (isProduction : Bool),
      (rateLimitStep requests now isProduction).1 ≠ RateDecision.accepted →
      ((rateLimitStep requests now isProduction).2).Sublist requests := by
  intro requests now prod h
  simp only [rateLimitStep] at h ⊢
  split at h
  next hc =>
    rw [if_pos hc]
    exact List.filter_sublist requests
  next hc =>
    split at h
    next hc2 =>
      rw [if_neg hc, if_pos hc2]
      exact List.filter_sublist requests
    next hc2 =>
      exact absurd rfl h

/-- Witness for `c10_no_append_on_reject`: a request rejected by the interval
check leaves the tracker a sublist of what it was. -/
theorem c10_no_append_on_reject_witness :
    ((rateLimitStep [0] 1000 true).2).Sublist [0] :=
  c10_no_append_on_reject [0] 1000 true (by decide)

/-- A proxy candidate parsed from the public proxy lists. -/
structure ProxyInfo where
  ip : String
  port : String
  protocol : String
deriving DecidableEq, Repr

/-- Mutable state of `ProxyService`: the cached working proxies and the time of
the last refresh. -/
structure ProxyState where
  workingProxies : List ProxyInfo
  lastProxyRefresh : Nat
deriving DecidableEq, Repr

/-- `PROXY_REFRESH_INTERVAL = 3600000` (1 hour). -/
def proxyRefreshInterval : Nat := 3600000

/-- `testProxies`: only the first 20 candidates are tried; a proxy is kept
exactly when its request through the echo endpoint (`http://httpbin.org/ip`)
answers 200, abstracted as the `healthy` predicate. -/
def testProxies (proxies : List ProxyInfo) (healthy : ProxyInfo → Bool) :
    List ProxyInfo :=
  (proxies.take 20).filter healthy

/-- `refreshProxyList`: `fetched` stands for the concatenation of the proxies
parsed from the free proxy APIs; the first 50 are passed to `testProxies` and
the refresh time is recorded. -/
def refreshProxyList (fetched : List ProxyInfo) (healthy : ProxyInfo → Bool)
    (now : Nat) : ProxyState :=
  { workingProxies := testProxies (fetched.take 50) healthy,
    lastProxyRefresh := now }

/-- `getWorkingProxies`: refresh when the interval has elapsed
(`now - lastProxyRefresh > PROXY_REFRESH_INTERVAL`) or when no proxies are
cached, then return the first 10.  The Bool observation records whether a
refresh was triggered. -/
def getWorkingProxies (st : ProxyState) (now : Nat) (fetched : List ProxyInfo)
    (healthy : ProxyInfo → Bool) : List ProxyInfo × ProxyState × Bool :=
  if proxyRefreshInterval < now - st.lastProxyRefresh
      || st.workingProxies.length == 0 then
    let st2 := refreshProxyList fetched healthy now
    (st2.workingProxies.take 10, st2, true)
  else
    (st.workingProxies.take 10, st, false)

/-- State holding no working proxies, refreshed at time 1000. -/
def emptyProxyState : ProxyState := { workingProxies := [], lastProxyRefresh := 1000 }

/-- C9 counterexample: a call only one second after the previous refresh still
triggers a refresh of the proxy list, because the cached working-proxy list is
empty — the list is not refreshed "at most once per interval". -/
theorem c9_counterexample :
    (getWorkingProxies emptyProxyState 1001 [] (fun _ => false)).2.2 = true := by
  decide

/-- C9 (amended): a second call within the refresh interval triggers no refresh
provided the cache is nonempty (an empty cache forces a refresh on every call);
and every proxy ever returned has passed the health check: a refresh stores
only health-checked proxies, and a non-refreshing call returns a prefix of a
health-checked cache. -/
theorem c9_amended :
    (∀ (st : ProxyState) (now : Nat) (fetched : List ProxyInfo)
        (healthy : ProxyInfo → Bool),
      st.workingProxies ≠ [] →
      now - st.lastProxyRefresh ≤ proxyRefreshInterval →
      (getWorkingProxies st now fetched healthy).2.2 = false ∧
      (getWorkingProxies st now fetched healthy).2.1 = st)
    ∧ (∀ (st : ProxyState) (now : Nat) (fetched : List ProxyInfo)
        (healthy : ProxyInfo → Bool),
      (∀ p ∈ st.workingProxies, healthy p = true) →
      ∀ p ∈ (getWorkingProxies st now fetched healthy).1, healthy p = true)
    ∧ (∀ (now : Nat) (fetched : List ProxyInfo) (healthy : ProxyInfo → Bool),
      ∀ p ∈ (refreshProxyList fetched healthy now).workingProxies, healthy p = true) := by
  refine ⟨?_, ?_, ?_⟩
  · intro st now fetched healthy hne hle
    have hcond : (proxyRefreshInterval < now - st.lastProxyRefresh
        || st.workingProxies.length == 0) = false := by
      simp only [Bool.or_eq_false_iff]
      constructor
      · simp only [decide_eq_false_iff_not]
        omega
      · simpa using List.length_eq_zero.not.mpr hne
    rw [getWorkingProxies, hcond]
    exact ⟨rfl, rfl⟩
  · intro st now fetched healthy hinv p hp
    rw [getWorkingProxies] at hp
    by_cases hcond : (proxyRefreshInterval < now - st.lastProxyRefresh
        || st.workingProxies.length == 0) = true
    · rw [if_pos hcond] at hp
      have hp2 := (List.take_sublist 10 _).subset hp
      rw [refreshProxyList] at hp2
      simp only [testProxies] at hp2
      exact (List.mem_filter.mp hp2).2
    · rw [if_neg hcond] at hp
      exact hinv p ((List.take_sublist 10 _).subset hp)
  · intro now fetched healthy p hp
    rw [refreshProxyList] at hp
    simp only [testProxies] at hp
    exact (List.mem_filter.mp hp).2

/-- A concrete healthy proxy. -/
def proxyA : ProxyInfo := { ip := "1.2.3.4", port := "8080", protocol := "http" }

/-- State caching one proxy, refreshed at time 1000. -/
def goodProxyState : ProxyState := { workingProxies := [proxyA], lastProxyRefresh := 1000 }

/-- Witness for `c9_amended`: a nonempty cache within the interval is neither
refreshed nor mutated, its returned proxies are healthy, and a refresh stores
only healthy proxies. -/
theorem c9_amended_witness :
    ((getWorkingProxies goodProxyState 2000 [] (fun _ => true)).2.2 = false ∧
      (getWorkingProxies goodProxyState 2000 [] (fun _ => true)).2.1 = goodProxyState) ∧
    (fun _ => true) proxyA = true ∧
    (fun _ => true) proxyA = true :=
  ⟨c9_amended.1 goodProxyState 2000 [] (fun _ => true) (by decide)
      (by decide),
   c9_amended.2.1 goodProxyState 2000 [] (fun _ => true)
      (by intro p _; rfl) proxyA (by decide),
   c9_amended.2.2 5 [proxyA] (fun _ => true) proxyA (by decide)⟩
